import Mathlib

/-!
Shallow embedding of the three validation scripts of this repository
(scripts/validate_config.py, scripts/validate_content.py,
scripts/validate_env.py) together with theorems settling the frozen
claims about them.

Conventions of the embedding:
* file-system paths are strings; the outcome of reading a file or
  directory is passed in explicitly (`FileLoad`, `ConfigLoad`,
  an optional file list), since the scripts' behaviour is a pure
  function of those outcomes;
* Python regular-expression searches are translated into explicit
  character-list scanners with the same matching semantics
  (documented at each definition);
* subprocess invocations of the environment validator are abstracted
  as their observable outcome (`Except` of an exception message or a
  completed process result), which the script consumes.
-/

/-- Python's `\s` character class restricted to ASCII, which is what the
whitespace handling of these scripts relies on: space, tab, newline,
carriage return, vertical tab, form feed. -/
def isPySpace (c : Char) : Bool :=
  c == ' ' || c == '\t' || c == '\n' || c == '\r' || c == '\x0b' || c == '\x0c'

/-- Python `str.strip()` on a character list: remove leading and trailing
whitespace. -/
def pyStripL (l : List Char) : List Char :=
  ((l.dropWhile isPySpace).reverse.dropWhile isPySpace).reverse

/-- Python `str.strip()` on a string. -/
def pyStrip (s : String) : String :=
  String.mk (pyStripL s.data)

/-- Python's `needle in s` substring test. -/
def containsStr (needle s : String) : Bool :=
  s.data.tails.any fun t => needle.data.isPrefixOf t

/-- Python `enumerate(lines, start)`: pair each line with its 1-based
line number. -/
def withLineNums (start : Nat) : List String → List (Nat × String)
  | [] => []
  | l :: ls => (start, l) :: withLineNums (start + 1) ls

/-- Python `int()` on a non-empty digit string. -/
def digitsToNat (ds : List Char) : Nat :=
  ds.foldl (fun a c => a * 10 + (c.toNat - 48)) 0

/-- `Path.name`: the final component of a path string. -/
def pathName (p : String) : String :=
  ((p.splitOn "/").getLastD "")

/-! ## Content validator (scripts/validate_content.py) -/

/-- `MAX_URL_DISPLAY_LENGTH` from validate_content.py. -/
def MAX_URL_DISPLAY_LENGTH : Nat := 50

/-- The `ContentIssue` dataclass of validate_content.py.  `file_path` is a
path string; the dataclass has no `passed` flag. -/
structure ContentIssue where
  file_path : String
  line_number : Nat
  severity : String
  category : String
  message : String
  deriving DecidableEq

/-- One attempt of the link pattern `\[([^\]]+)\]\(([^\)]+)\)` at a
position just after an opening `[`: a non-empty run of characters other
than `]`, then `](`, then a non-empty run of characters other than `)`,
then `)`.  Both character classes are complemented single-character
classes, so the greedy runs are forced and the match is deterministic.
Returns the two capture groups on success. -/
def tryLink (cs : List Char) : Option (List Char × List Char) :=
  let t := cs.takeWhile (fun x => x ≠ ']')
  if t.isEmpty then none else
  match cs.drop t.length with
  | ']' :: '(' :: r2 =>
    let u := r2.takeWhile (fun x => x ≠ ')')
    if u.isEmpty then none else
    match r2.drop u.length with
    | ')' :: _ => some (t, u)
    | _ => none
  | _ => none

/-- `re.finditer` of the link pattern over one line: scan left to right;
a failed attempt moves one character forward, a successful match resumes
after its closing `)` (the second argument counts characters still to be
skipped from the previous match). -/
def findLinksAux : List Char → Nat → List (List Char × List Char)
  | [], _ => []
  | _ :: cs, n + 1 => findLinksAux cs n
  | c :: cs, 0 =>
    if c = '[' then
      match tryLink cs with
      | some (t, u) => (t, u) :: findLinksAux cs (t.length + u.length + 3)
      | none => findLinksAux cs 0
    else findLinksAux cs 0

/-- All link matches `(text, url)` of a line, leftmost first,
non-overlapping. -/
def findLinks (cs : List Char) : List (List Char × List Char) :=
  findLinksAux cs 0

/-- The message of the non-HTTPS warning:
`f"Non-HTTPS link found: {link_url[:MAX_URL_DISPLAY_LENGTH]}..."`.
Note the ellipsis is part of the literal and is appended always. -/
def nonHttpsMessage (u : List Char) : String :=
  "Non-HTTPS link found: " ++ String.mk (u.take MAX_URL_DISPLAY_LENGTH) ++ "..."

/-- The issues `_check_links` records for a single link match, in source
order: scheme/prefix issue first, then the empty-link-text issue. -/
def linkIssuesFor (name : String) (lineNum : Nat) (t u : List Char) :
    List ContentIssue :=
  if "#".data.isPrefixOf u || "mailto:".data.isPrefixOf u then []
  else
    (if "http://".data.isPrefixOf u || "https://".data.isPrefixOf u then
      (if "http://".data.isPrefixOf u then
        [⟨name, lineNum, "warning", "link", nonHttpsMessage u⟩]
      else [])
    else
      (if !("/".data.isPrefixOf u) && !("../".data.isPrefixOf u)
          && u.contains '.' then
        [⟨name, lineNum, "info", "link",
          "Relative link without path prefix: " ++ String.mk u⟩]
      else []))
    ++
    (if (pyStripL t).isEmpty then
      [⟨name, lineNum, "warning", "accessibility",
        "Link has empty text - bad for screen readers"⟩]
    else [])

/-- `_check_links`: per line, per match, the issues above. -/
def checkLinks (name : String) (lines : List String) : List ContentIssue :=
  (withLineNums 1 lines).flatMap fun p =>
    (findLinks p.2.data).flatMap fun q => linkIssuesFor name p.1 q.1 q.2

/-- ATX heading parse of `re.match(r'^(#{1,6})\s+(.+)$', line)`: a run of
one to six `#` (a longer run fails, since the character after the
matched hashes must be whitespace), at least one whitespace character,
then `.+$`, which succeeds exactly when some later character of the line
differs from a newline (the run of newlines before it is absorbed by
`\s+`).  Returns the heading level. -/
def parseHeading (line : String) : Option Nat :=
  let cs := line.data
  let k := (cs.takeWhile (fun c => c == '#')).length
  if 1 ≤ k ∧ k ≤ 6 then
    match cs.drop k with
    | c :: rest => if isPySpace c ∧ rest.any (fun x => x ≠ '\n') then some k else none
    | [] => none
  else none

/-- The `(level, line_number)` list `_check_headings` builds. -/
def headingLevels (lines : List String) : List (Nat × Nat) :=
  (withLineNums 1 lines).filterMap fun p =>
    (parseHeading p.2).map fun k => (k, p.1)

/-- The heading-jump issue for a previous level and a heading. -/
def jumpIssue (name : String) (prev : Nat) (q : Nat × Nat) : ContentIssue :=
  ⟨name, q.2, "info", "structure",
    "Heading level jump from h" ++ toString prev ++ " to h" ++ toString q.1
      ++ " - may affect accessibility"⟩

/-- The loop of `_check_headings`: `prev_level` starts at 0 and is set to
every heading's level; an issue fires when `level > prev_level + 1` and
`prev_level > 0`. -/
def headingScan (name : String) : Nat → List (Nat × Nat) → List ContentIssue
  | _, [] => []
  | prev, q :: rest =>
    (if q.1 > prev + 1 ∧ prev > 0 then [jumpIssue name prev q] else [])
      ++ headingScan name q.1 rest

/-- `_check_headings`. -/
def checkHeadings (name : String) (lines : List String) : List ContentIssue :=
  headingScan name 0 (headingLevels lines)

/-- `_check_frontmatter`: a file whose content starts with neither `---`
nor `+++` gets a structure warning, unless its base name is
`_index.md`. -/
def checkFrontmatter (path : String) (content : String) : List ContentIssue :=
  if !(content.startsWith "---" || content.startsWith "+++") then
    if pathName path ≠ "_index.md" then
      [⟨path, 1, "warning", "structure",
        "No frontmatter detected - consider adding title and metadata"⟩]
    else []
  else []

/-- The loop of `_check_code_blocks`: a line whose stripped form starts
with three backticks toggles the in-block flag; on entering a block, an
empty language tag after the backticks yields an info issue. -/
def codeBlockScan (name : String) : Bool → List (Nat × String) → List ContentIssue
  | _, [] => []
  | inBlock, (ln, line) :: rest =>
    let s := pyStrip line
    if s.startsWith "```" then
      if !inBlock then
        (if (pyStrip (s.drop 3)) == "" then
          [⟨name, ln, "info", "formatting",
            "Code block without language specification - consider adding for syntax highlighting"⟩]
        else [])
          ++ codeBlockScan name true rest
      else codeBlockScan name false rest
    else codeBlockScan name inBlock rest

/-- `_check_code_blocks`. -/
def checkCodeBlocks (name : String) (lines : List String) : List ContentIssue :=
  codeBlockScan name false (withLineNums 1 lines)

/-- One attempt of the image pattern `!\[([^\]]*)\]\(([^\)]+)\)` at a
position just after `![`: like `tryLink` but the alt text may be
empty. -/
def tryImage (cs : List Char) : Option (List Char × List Char) :=
  let a := cs.takeWhile (fun x => x ≠ ']')
  match cs.drop a.length with
  | ']' :: '(' :: r2 =>
    let u := r2.takeWhile (fun x => x ≠ ')')
    if u.isEmpty then none else
    match r2.drop u.length with
    | ')' :: _ => some (a, u)
    | _ => none
  | _ => none

/-- `re.finditer` of the image pattern over one line. -/
def findImagesAux : List Char → Nat → List (List Char × List Char)
  | [], _ => []
  | _ :: cs, n + 1 => findImagesAux cs n
  | c :: cs, 0 =>
    if c = '!' then
      match cs with
      | '[' :: cs2 =>
        match tryImage cs2 with
        | some (a, u) => (a, u) :: findImagesAux cs (a.length + u.length + 4)
        | none => findImagesAux cs 0
      | _ => findImagesAux cs 0
    else findImagesAux cs 0

/-- All image matches `(alt, url)` of a line. -/
def findImages (cs : List Char) : List (List Char × List Char) :=
  findImagesAux cs 0

/-- `display_url` of `_check_accessibility`: the image URL truncated to
the display cap only when longer than the cap. -/
def displayUrl (u : List Char) : String :=
  String.mk (if u.length > MAX_URL_DISPLAY_LENGTH
    then u.take MAX_URL_DISPLAY_LENGTH else u)

/-- `truncation_suffix` of `_check_accessibility`: the ellipsis marker,
present only when the URL is longer than the cap. -/
def truncSuffix (u : List Char) : String :=
  if u.length > MAX_URL_DISPLAY_LENGTH then "..." else ""

/-- The message of the missing-alt-text warning. -/
def imageAltMessage (u : List Char) : String :=
  "Image without alt text: " ++ displayUrl u ++ truncSuffix u
    ++ " (bad for screen readers)"

/-- `_check_accessibility`: a warning for every image whose alt text
strips to the empty string. -/
def checkAccessibility (name : String) (lines : List String) : List ContentIssue :=
  (withLineNums 1 lines).flatMap fun p =>
    (findImages p.2.data).flatMap fun q =>
      if (pyStripL q.1).isEmpty then
        [⟨name, p.1, "warning", "accessibility", imageAltMessage q.2⟩]
      else []

/-- Outcome of reading one markdown file. -/
inductive FileLoad where
  | ok (content : String)
  | failed (err : String)
  deriving DecidableEq

/-- `validate_file`: a read failure yields the single error issue; a
loaded file runs the five checks in source order on its newline-split
lines. -/
def validateFile (path : String) (load : FileLoad) : List ContentIssue :=
  match load with
  | .failed e =>
    [⟨path, 0, "error", "structure", "Failed to read file: " ++ e⟩]
  | .ok content =>
    let lines := content.splitOn "\n"
    checkFrontmatter path content ++ checkLinks path lines
      ++ checkHeadings path lines ++ checkCodeBlocks path lines
      ++ checkAccessibility path lines

/-- `validate_all` together with `find_markdown_files`: `none` models a
missing content directory, in which case `find_markdown_files` returns
the empty file list; an empty file list returns success immediately with
no issues recorded.  Returns the recorded issues and the overall
boolean. -/
def contentRun (dir : Option (List (String × FileLoad))) :
    List ContentIssue × Bool :=
  let files := dir.getD []
  if files.isEmpty then ([], true)
  else
    let issues := files.flatMap fun f => validateFile f.1 f.2
    (issues, (issues.filter (fun i => i.severity == "error")).length == 0)

/-- The exit code of validate_content.py's `main`. -/
def contentExit (dir : Option (List (String × FileLoad))) : Nat :=
  if (contentRun dir).2 then 0 else 1

/-! ## Config validator (scripts/validate_config.py) -/

/-- The `ValidationResult` dataclass of validate_config.py. -/
structure ValidationResult where
  passed : Bool
  message : String
  severity : String
  deriving DecidableEq

/-- The suffixes of a character list at which `re.MULTILINE`'s `^`
matches: the whole list and the suffix after every newline. -/
def tailsAfterNewline : List Char → List (List Char)
  | [] => []
  | c :: cs =>
    if c = '\n' then cs :: tailsAfterNewline cs else tailsAfterNewline cs

/-- All `^`-anchored starting suffixes for a multiline search. -/
def lineStartSuffixes (s : List Char) : List (List Char) :=
  s :: tailsAfterNewline s

/-- One attempt of `^\s*<field>\s*=\s*.+$` at a line start: skip
whitespace (greedy and forced, the fields start with a non-whitespace
character), read the field literally, skip whitespace, read `=`, and
then `\s*.+$` succeeds exactly when some later character differs from a
newline (the newlines before it are absorbed by `\s*`, and `.+` then
runs to the end of that line where `$` holds). -/
def matchFieldAt (field : List Char) (s : List Char) : Bool :=
  let s1 := s.dropWhile isPySpace
  if field.isPrefixOf s1 then
    match (s1.drop field.length).dropWhile isPySpace with
    | '=' :: rest => rest.any (fun c => c ≠ '\n')
    | _ => false
  else false

/-- `re.search(rf'^\s*{field}\s*=\s*.+$', content, re.MULTILINE)` as a
boolean. -/
def fieldPresent (field : String) (content : String) : Bool :=
  (lineStartSuffixes content.data).any (matchFieldAt field.data)

/-- One finding of `validate_required_fields` for one field. -/
def requiredField (field reason : String) (content : String) : ValidationResult :=
  if fieldPresent field content then
    ⟨true, "Required field \x27" ++ field ++ "\x27 is present", "info"⟩
  else
    ⟨false, "Missing required field \x27" ++ field ++ "\x27: " ++ reason, "error"⟩

/-- `validate_required_fields`: one finding per required field, in
declaration order. -/
def validateRequiredFields (content : String) : List ValidationResult :=
  [requiredField "baseURL" "Base URL must be defined for proper site generation" content,
   requiredField "title" "Site title is required for SEO and accessibility" content,
   requiredField "languageCode" "Language code required for proper HTML lang attribute" content]

/-- `validate_security_settings`. -/
def validateSecuritySettings (content : String) : List ValidationResult :=
  (if containsStr "unsafe = true" content then
    [⟨true, "Unsafe HTML rendering enabled - ensure content is trusted", "warning"⟩]
  else [])
  ++
  (if containsStr "rel=" content then
    (if containsStr "noreferrer" content || containsStr "noopener" content then
      [⟨true, "External links have security attributes (noreferrer/noopener)", "info"⟩]
    else [])
  else [])

/-- One attempt of `^\s*<field>\s*=\s*true` at a line start. -/
def matchFieldTrueAt (field : List Char) (s : List Char) : Bool :=
  let s1 := s.dropWhile isPySpace
  if field.isPrefixOf s1 then
    match (s1.drop field.length).dropWhile isPySpace with
    | '=' :: rest => "true".data.isPrefixOf (rest.dropWhile isPySpace)
    | _ => false
  else false

/-- `re.search(rf'^\s*{field}\s*=\s*true', content, re.MULTILINE)`. -/
def fieldTrue (field : String) (content : String) : Bool :=
  (lineStartSuffixes content.data).any (matchFieldTrueAt field.data)

/-- One finding of `validate_defensive_defaults` for one field. -/
def defensiveCheck (field reason : String) (content : String) : ValidationResult :=
  if fieldTrue field content then
    ⟨true, "Defensive default enabled: " ++ field, "info"⟩
  else
    ⟨false, "Recommended: Enable " ++ field ++ " - " ++ reason, "warning"⟩

/-- `validate_defensive_defaults`. -/
def validateDefensiveDefaults (content : String) : List ValidationResult :=
  [defensiveCheck "enableRobotsTXT" "Robots.txt should be enabled for SEO control" content,
   defensiveCheck "enableGitInfo" "Git info provides useful metadata for debugging" content]

/-- The literal `[[menu.main]]` the menu block pattern looks for. -/
def menuLit : List Char := "[[menu.main]]".data

/-- The lazy capture `(.*?)(?=\[\[menu\.main\]\]|$)` with `re.DOTALL`:
take characters (newlines included) until the first position where the
remainder starts with the literal, is empty, or is a single final
newline (the two positions where `$` holds without `re.MULTILINE`).
Returns the captured block and the remainder, which by construction is
the input with the captured prefix removed. -/
def captureItem : List Char → List Char × List Char
  | [] => ([], [])
  | c :: cs =>
    if menuLit.isPrefixOf (c :: cs) || (c == '\n' && cs.isEmpty) then
      ([], c :: cs)
    else
      let p := captureItem cs
      (c :: p.1, p.2)

/-- `re.findall(r'\[\[menu\.main\]\](.*?)(?=\[\[menu\.main\]\]|$)', content,
re.DOTALL)`: scan for the literal; each match captures the following
block lazily and the scan resumes at the zero-width lookahead position
(the skip counter accounts for the consumed literal and block). -/
def findMenuAux : List Char → Nat → List (List Char)
  | [], _ => []
  | _ :: cs, n + 1 => findMenuAux cs n
  | c :: cs, 0 =>
    if menuLit.isPrefixOf (c :: cs) then
      let p := captureItem ((c :: cs).drop menuLit.length)
      p.1 :: findMenuAux cs (menuLit.length - 1 + p.1.length)
    else findMenuAux cs 0

/-- All captured `[[menu.main]]` blocks of a config text. -/
def findMenu (content : String) : List (List Char) :=
  findMenuAux content.data 0

/-- One attempt of `weight\s*=\s*(\d+)` at a position: the literal
`weight`, whitespace, `=`, whitespace, then a non-empty maximal digit
run, returned as a number. -/
def tryWeightAt (s : List Char) : Option Nat :=
  if "weight".data.isPrefixOf s then
    match (s.drop 6).dropWhile isPySpace with
    | '=' :: rest =>
      let ds := (rest.dropWhile isPySpace).takeWhile Char.isDigit
      if ds.isEmpty then none else some (digitsToNat ds)
    | _ => none
  else none

/-- `re.search(r'weight\s*=\s*(\d+)', item)`: the leftmost match. -/
def searchWeight (s : List Char) : Option Nat :=
  (s.tails.filterMap tryWeightAt).head?

/-- The `weights` list `validate_menu_structure` collects: the first
weight match of each captured menu block, blocks without one skipped. -/
def menuWeights (content : String) : List Nat :=
  (findMenu content).filterMap searchWeight

/-- `validate_menu_structure`: with no weights, no finding; with all
weights distinct (`len(weights) == len(set(weights))`), one passed info
finding; otherwise one duplicate-weight warning. -/
def validateMenuStructure (content : String) : List ValidationResult :=
  let weights := menuWeights content
  if weights.isEmpty then []
  else if weights.length == weights.dedup.length then
    [⟨true, "Menu weights are unique (" ++ toString weights.length ++ " items)", "info"⟩]
  else
    [⟨false, "Duplicate menu weights found - may cause ordering issues", "warning"⟩]

/-- One attempt of `type\s*=\s*["\']search["\']` at a position. -/
def tryTypeAt (s : List Char) : Bool :=
  if "type".data.isPrefixOf s then
    match (s.drop 4).dropWhile isPySpace with
    | '=' :: rest =>
      match rest.dropWhile isPySpace with
      | q :: rest2 =>
        (q == '"' || q == '\x27') && "search".data.isPrefixOf rest2 &&
          (match rest2.drop 6 with
           | q2 :: _ => q2 == '"' || q2 == '\x27'
           | [] => false)
      | [] => false
    | _ => false
  else false

/-- `re.search(r'type\s*=\s*["\']search["\']', content)` as a boolean. -/
def hasSearchType (content : String) : Bool :=
  content.data.tails.any tryTypeAt

/-- `validate_accessibility` of the config validator. -/
def validateAccessibilityCfg (content : String) : List ValidationResult :=
  (if containsStr "languageCode" content
      || containsStr "defaultContentLanguage" content then
    [⟨true, "Language configuration present for accessibility", "info"⟩]
  else [])
  ++
  (if hasSearchType content then
    [⟨true, "Search functionality configured (enhances accessibility)", "info"⟩]
  else [])

/-- The findings of a loaded config, in the order `validate` runs the
rules. -/
def configResults (content : String) : List ValidationResult :=
  validateRequiredFields content ++ validateSecuritySettings content
    ++ validateDefensiveDefaults content ++ validateMenuStructure content
    ++ validateAccessibilityCfg content

/-- Outcome of `load_config`: the file is missing, reading raised, or the
text was loaded. -/
inductive ConfigLoad where
  | missing (path : String)
  | readFail (err : String)
  | loaded (content : String)
  deriving DecidableEq

/-- The aggregation of `validate`:
`any(r.severity == "error" and not r.passed for r in self.results)`. -/
def hasErrors (rs : List ValidationResult) : Bool :=
  rs.any fun r => r.severity == "error" && !r.passed

/-- `validate`: a load failure records its single error finding and
returns failure immediately; otherwise all rules run and the overall
boolean is the negated error predicate. -/
def configRun (load : ConfigLoad) : List ValidationResult × Bool :=
  match load with
  | .missing p =>
    ([⟨false, "Configuration file not found: " ++ p, "error"⟩], false)
  | .readFail e =>
    ([⟨false, "Failed to read config: " ++ e, "error"⟩], false)
  | .loaded c =>
    let rs := configResults c
    (rs, !hasErrors rs)

/-- The exit code of validate_config.py's `main`. -/
def configExit (load : ConfigLoad) : Nat :=
  if (configRun load).2 then 0 else 1

/-! ## Environment validator (scripts/validate_env.py) -/

/-- The `ToolCheck` dataclass of validate_env.py. -/
structure ToolCheck where
  tool : String
  required : Bool
  found : Bool
  version : Option String := none
  message : Option String := none
  deriving DecidableEq

/-- Observable result of a completed `subprocess.run`. -/
structure RunResult where
  returncode : Int
  stdout : String
  stderr : String
  deriving DecidableEq

/-- The environment as the scripts observe it: for each probe, whether
`shutil.which` finds the binary and what its version/status subprocess
does (`Except.error` is a raised exception such as a timeout or launch
failure, `Except.ok` a completed process). -/
structure EnvWorld where
  hugoWhich : Bool
  hugoRun : Except String RunResult
  goWhich : Bool
  goRun : Except String RunResult
  gitWhich : Bool
  gitRun : Except String RunResult
  makeWhich : Bool
  makeRun : Except String RunResult
  pythonRun : Except String RunResult
  gitRevParse : Except String RunResult
  gitConfigName : Except String RunResult
  gitConfigEmail : Except String RunResult
  goModExists : Bool
  goSumExists : Bool
  goModVerify : Except String RunResult

/-- `check_command`: `found` comes from the PATH lookup; only when found
is the version subprocess attempted, any exception being caught and
turned into version `"Unknown"` with a descriptive message.  The version
on success is the first line of the stripped output, stdout preferred
over stderr when non-empty, `"Unknown"` when both are empty. -/
def check_command (cmd : String) (which : Bool)
    (run : Except String RunResult) (required : Bool) : ToolCheck :=
  if which then
    match run with
    | .ok r =>
      let output := if r.stdout ≠ "" then r.stdout else r.stderr
      let version := if output ≠ "" then
          ((pyStrip output).splitOn "\n").headD ""
        else "Unknown"
      ⟨cmd, required, true, some version, none⟩
    | .error e =>
      ⟨cmd, required, true, some "Unknown",
        some ("Found but version check failed: " ++ e)⟩
  else
    ⟨cmd, required, false, none, some "Not found in PATH"⟩

/-- `str.lower()` (ASCII). -/
def strLower (s : String) : String :=
  String.mk (s.data.map Char.toLower)

/-- `check_hugo_version`: requires the probe to find hugo and its
version string to contain `extended` case-insensitively. -/
def check_hugo_version (w : EnvWorld) : Bool × String :=
  let hc := check_command "hugo" w.hugoWhich w.hugoRun true
  if !hc.found then (false, "Hugo not installed")
  else
    match hc.version with
    | some v =>
      if containsStr "extended" (strLower v) then
        (true, "Hugo extended found: " ++ v)
      else (false, "Hugo extended required but found: " ++ v)
    | none => (false, "Hugo extended required but found: None")

/-- One attempt of `Python (\d+)\.(\d+)` at a position. -/
def tryPyVersionAt (s : List Char) : Option (Nat × Nat) :=
  if "Python ".data.isPrefixOf s then
    let r := s.drop 7
    let d1 := r.takeWhile Char.isDigit
    if d1.isEmpty then none
    else match r.drop d1.length with
      | '.' :: r2 =>
        let d2 := r2.takeWhile Char.isDigit
        if d2.isEmpty then none else some (digitsToNat d1, digitsToNat d2)
      | _ => none
  else none

/-- `re.search(r'Python (\d+)\.(\d+)', version_str)`. -/
def pySearchVersion (s : List Char) : Option (Nat × Nat) :=
  (s.tails.filterMap tryPyVersionAt).head?

/-- `check_python_version`. -/
def check_python_version (w : EnvWorld) : Bool × String :=
  match w.pythonRun with
  | .error e => (false, "Python check failed: " ++ e)
  | .ok r =>
    let version_str := pyStrip r.stdout
    match pySearchVersion version_str.data with
    | some (ma, mi) =>
      if ma ≥ 3 ∧ mi ≥ 7 then
        (true, "Python " ++ toString ma ++ "." ++ toString mi
          ++ " (meets requirement: 3.7+)")
      else
        (false, "Python " ++ toString ma ++ "." ++ toString mi
          ++ " found but 3.7+ required")
    | none => (true, version_str)

/-- `check_git_config`: an exception in any of the three subprocess calls
yields the failure message; a non-zero `rev-parse` means not a git
repository; then the user is configured exactly when both `user.name`
and `user.email` return code 0 with non-empty stripped stdout. -/
def check_git_config (w : EnvWorld) : Bool × String :=
  match w.gitRevParse with
  | .error e => (false, "Git check failed: " ++ e)
  | .ok rp =>
    if rp.returncode ≠ 0 then (false, "Not a git repository")
    else
      match w.gitConfigName with
      | .error e => (false, "Git check failed: " ++ e)
      | .ok nr =>
        match w.gitConfigEmail with
        | .error e => (false, "Git check failed: " ++ e)
        | .ok er =>
          let has_name := (nr.returncode == 0) && !(pyStrip nr.stdout == "")
          let has_email := (er.returncode == 0) && !(pyStrip er.stdout == "")
          if has_name && has_email then (true, "Git user configured")
          else (false, "Git user.name or user.email not configured")

/-- `check_go_modules`. -/
def check_go_modules (w : EnvWorld) : Bool × String :=
  if !w.goModExists then (false, "go.mod not found")
  else if !w.goSumExists then
    (false, "go.sum not found - run \x27hugo mod get\x27 or \x27hugo mod tidy\x27")
  else
    match w.goModVerify with
    | .ok r =>
      if r.returncode == 0 then (true, "Go modules verified")
      else (false, "Go module verification failed: " ++ r.stderr)
    | .error e => (false, "Could not verify Go modules: " ++ e)

/-- `validate` of the environment validator: the overall result is the
hand-rolled conjunction of the named required checks (the go-modules and
make probes are reported but not part of it). -/
def validateEnv (w : EnvWorld) : Bool :=
  let hugo_ok := (check_hugo_version w).1
  let go_check := check_command "go" w.goWhich w.goRun true
  let python_ok := (check_python_version w).1
  let git_check := check_command "git" w.gitWhich w.gitRun true
  let git_config_ok := (check_git_config w).1
  hugo_ok && go_check.found && python_ok && git_check.found && git_config_ok

/-- The exit code of validate_env.py's `main`. -/
def envExit (w : EnvWorld) : Nat :=
  if validateEnv w then 0 else 1

/-! ## Definitions supporting the claim statements -/

/-- Whether `content` contains `line` as one of its text lines: some
`^`-anchored suffix is exactly the line, or the line followed by a
newline. -/
def hasLine (line content : String) : Bool :=
  (lineStartSuffixes content.data).any fun s =>
    s == line.data || (line.data ++ ['\n']).isPrefixOf s

/-- Recognizer of the duplicate-menu-weight warning finding. -/
def isDupWeightWarning (r : ValidationResult) : Bool :=
  !r.passed && r.severity == "warning"
    && r.message == "Duplicate menu weights found - may cause ordering issues"

/-- Modelled from the claim: the heading-jump findings characterised over
consecutive heading pairs, so that the first heading never produces one
and a finding needs a preceding heading whose level it exceeds by more
than one. -/
def specHeadingJumps (name : String) : List (Nat × Nat) → List ContentIssue
  | p :: q :: rest =>
    (if q.1 > p.1 + 1 then [jumpIssue name p.1 q] else [])
      ++ specHeadingJumps name (q :: rest)
  | _ => []

/-! ## Helper lemmas -/

theorem parseHeading_pos {l : String} {k : Nat} (h : parseHeading l = some k) :
    0 < k := by
  simp only [parseHeading] at h
  split at h
  case isTrue h16 =>
    split at h
    · split at h
      · injection h with h
        omega
      · exact absurd h (by simp)
    · exact absurd h (by simp)
  case isFalse => exact absurd h (by simp)

theorem headingLevels_pos {lines : List String} :
    ∀ x ∈ headingLevels lines, 0 < x.1 := by
  intro x hx
  unfold headingLevels at hx
  rcases List.mem_filterMap.mp hx with ⟨p, _, hp⟩
  rcases Option.map_eq_some'.mp hp with ⟨k, hk, hxk⟩
  subst hxk
  exact parseHeading_pos hk

theorem headingScan_eq_spec (name : String) :
    ∀ (rest : List (Nat × Nat)) (p : Nat × Nat), 0 < p.1 →
      (∀ x ∈ rest, 0 < x.1) →
      headingScan name p.1 rest = specHeadingJumps name (p :: rest) := by
  intro rest
  induction rest with
  | nil =>
    intro p _ _
    rfl
  | cons q rest ih =>
    intro p hp hrest
    have hq : 0 < q.1 := hrest q (List.mem_cons_self q rest)
    have := ih q hq (fun x hx => hrest x (List.mem_cons_of_mem q hx))
    simp only [headingScan, specHeadingJumps, this]
    have : (q.1 > p.1 + 1 ∧ p.1 > 0) ↔ (q.1 > p.1 + 1) := by
      constructor
      · exact fun h => h.1
      · exact fun h => ⟨h, hp⟩
    simp [this]

/-! ## Claims -/

/-- C10: the heading-hierarchy rule never emits a finding for the first
heading of a document, whatever its level; a heading-level-jump finding
is produced only for a heading preceded by at least one earlier heading
and whose level exceeds the previous heading's level by more than one.
`checkHeadings` coincides with the consecutive-pair characterisation
`specHeadingJumps`, which by construction skips the first heading; in
particular a file whose first heading is `### Title` yields no
heading-jump finding. -/
theorem claim_c10_first_heading (name : String) (lines : List String) :
    checkHeadings name lines = specHeadingJumps name (headingLevels lines)
      ∧ checkHeadings name ["### Title"] = [] := by
  constructor
  · unfold checkHeadings
    cases hh : headingLevels lines with
    | nil => rfl
    | cons p rest =>
      have hp : 0 < p.1 := headingLevels_pos p (hh ▸ List.mem_cons_self p rest)
      have hrest : ∀ x ∈ rest, 0 < x.1 := fun x hx =>
        headingLevels_pos x (hh ▸ List.mem_cons_of_mem p hx)
      have hfirst : ¬(p.1 > 0 + 1 ∧ (0 : Nat) > 0) := by omega
      simp only [headingScan, if_neg hfirst, List.nil_append]
      exact headingScan_eq_spec name rest p hp hrest
  · rfl

/-- C9: the validation functions are deterministic in their input: two
runs of the same validator on the unchanged artifact produce identical
ordered finding lists and the same overall result.  In the embedding the
validators are pure functions of the loaded artifact, so equal inputs
give equal runs. -/
theorem claim_c9_determinism (l1 l2 : ConfigLoad)
    (d1 d2 : Option (List (String × FileLoad))) (w1 w2 : EnvWorld)
    (hc : l1 = l2) (hd : d1 = d2) (hw : w1 = w2) :
    configRun l1 = configRun l2 ∧ contentRun d1 = contentRun d2
      ∧ validateEnv w1 = validateEnv w2 := by
  subst hc; subst hd; subst hw
  exact ⟨rfl, rfl, rfl⟩

theorem claim_c9_determinism_witness :
    configRun (ConfigLoad.loaded "baseURL = \"x\"")
        = configRun (ConfigLoad.loaded "baseURL = \"x\"")
      ∧ contentRun (some [("a.md", FileLoad.ok "# hi")])
        = contentRun (some [("a.md", FileLoad.ok "# hi")]) :=
  ⟨(claim_c9_determinism _ _ (some [("a.md", FileLoad.ok "# hi")])
      (some [("a.md", FileLoad.ok "# hi")])
      ⟨false, Except.error "e", false, Except.error "e", false, Except.error "e",
        false, Except.error "e", Except.error "e", Except.error "e",
        Except.error "e", Except.error "e", false, false, Except.error "e"⟩
      _ rfl rfl rfl).1,
   (claim_c9_determinism (ConfigLoad.loaded "baseURL = \"x\"") _ _ _
      ⟨false, Except.error "e", false, Except.error "e", false, Except.error "e",
        false, Except.error "e", Except.error "e", Except.error "e",
        Except.error "e", Except.error "e", false, false, Except.error "e"⟩
      _ rfl rfl rfl).2.1⟩

/-- C5 counterexample: the claim says a timeout or launch failure of the
version command is reported as `found=false`; in the code `found` comes
from the PATH lookup alone, so when the binary is on PATH and the
version command raises, the result still has `found=true` (with the
descriptive message). -/
theorem claim_c5_counterexample :
    (check_command "hugo" true
        (Except.error "Command timed out after 5 seconds") true).found = true
      ∧ (check_command "hugo" true
          (Except.error "Command timed out after 5 seconds") true).message
        = some "Found but version check failed: Command timed out after 5 seconds" :=
  ⟨rfl, rfl⟩

/-- C5 amended: `check_command` is total — every exception of the version
command is consumed, never propagated.  When the binary is on PATH and
the version command fails or times out, the probe reports `found=true`
with version `"Unknown"` and a descriptive message; when the binary is
not on PATH the probe reports `found=false` with message
`"Not found in PATH"`. -/
theorem claim_c5_never_raises (cmd e : String) (req : Bool)
    (run : Except String RunResult) :
    check_command cmd true (Except.error e) req
        = ⟨cmd, req, true, some "Unknown",
            some ("Found but version check failed: " ++ e)⟩
      ∧ check_command cmd false run req
        = ⟨cmd, req, false, none, some "Not found in PATH"⟩ :=
  ⟨rfl, rfl⟩

/-- C4 counterexample: the claim says a matched value at or under the
50-character cap appears unmodified with no ellipsis appended; but the
non-HTTPS warning message appends the ellipsis marker unconditionally,
as this 11-character URL shows. -/
theorem claim_c4_counterexample :
    ("http://a.co".data.length ≤ MAX_URL_DISPLAY_LENGTH)
      ∧ linkIssuesFor "f.md" 1 "text".data "http://a.co".data
        = [⟨"f.md", 1, "warning", "link", "Non-HTTPS link found: http://a.co..."⟩] := by
  exact ⟨by decide, by decide⟩

/-- C4 amended: in the missing-alt-text warning the displayed image URL
is truncated to exactly the 50-character cap with the ellipsis marker
exactly when it is longer than the cap, and appears unmodified with no
ellipsis otherwise; in the non-HTTPS warning the displayed link URL is
truncated to at most the cap but the ellipsis marker is appended always,
even when the URL is at or under the cap (where the URL itself appears
unmodified before the marker). -/
theorem claim_c4_truncation (u : List Char) :
    (u.length > MAX_URL_DISPLAY_LENGTH →
        displayUrl u = String.mk (u.take MAX_URL_DISPLAY_LENGTH)
          ∧ (u.take MAX_URL_DISPLAY_LENGTH).length = MAX_URL_DISPLAY_LENGTH
          ∧ truncSuffix u = "...")
      ∧ (u.length ≤ MAX_URL_DISPLAY_LENGTH →
          displayUrl u = String.mk u ∧ truncSuffix u = "")
      ∧ nonHttpsMessage u
        = "Non-HTTPS link found: " ++ String.mk (u.take MAX_URL_DISPLAY_LENGTH) ++ "..."
      ∧ (u.length ≤ MAX_URL_DISPLAY_LENGTH →
          u.take MAX_URL_DISPLAY_LENGTH = u) := by
  refine ⟨fun h => ⟨?_, ?_, ?_⟩, fun h => ⟨?_, ?_⟩, rfl, fun h => ?_⟩
  · simp [displayUrl, h]
  · simp [List.length_take]
    omega
  · simp [truncSuffix, h]
  · simp [displayUrl, Nat.not_lt_of_le h]
  · simp [truncSuffix, Nat.not_lt_of_le h]
  · exact List.take_of_length_le h

theorem claim_c4_truncation_witness :
    (displayUrl "http://example.com/aaaaaaaaaaaaaaaaaaaaaaaaaaaaaaaaaaaaaaaaa".data
        = String.mk ("http://example.com/aaaaaaaaaaaaaaaaaaaaaaaaaaaaaaaaaaaaaaaaa".data.take
            MAX_URL_DISPLAY_LENGTH)
      ∧ ("http://example.com/aaaaaaaaaaaaaaaaaaaaaaaaaaaaaaaaaaaaaaaaa".data.take
          MAX_URL_DISPLAY_LENGTH).length = MAX_URL_DISPLAY_LENGTH
      ∧ truncSuffix "http://example.com/aaaaaaaaaaaaaaaaaaaaaaaaaaaaaaaaaaaaaaaaa".data = "...")
      ∧ (displayUrl "img.png".data = String.mk "img.png".data
        ∧ truncSuffix "img.png".data = "") :=
  ⟨(claim_c4_truncation _).1 (by decide),
   (claim_c4_truncation "img.png".data).2.1 (by decide)⟩

/-- C3 counterexample: the claim says every validator records exactly one
error finding and fails (exit 1) when its target artifact cannot be
loaded; but when the content directory is missing, `find_markdown_files`
returns the empty list, `validate_all` records no finding at all and
returns success, and the process exits 0. -/
theorem claim_c3_counterexample :
    contentRun none = ([], true) ∧ contentExit none = 0 :=
  ⟨rfl, rfl⟩

/-- C3 amended: for the config validator a load failure (missing file or
read failure) records exactly the one error finding, skips all remaining
rules and exits 1; in the content validator a per-file read failure
records exactly one error finding for that file and makes the overall
run fail (exit 1) while the other files are still processed; but a
missing content directory records no finding and the run passes with
exit code 0. -/
theorem claim_c3_load_failures (p e : String)
    (files : List (String × FileLoad))
    (hmem : (p, FileLoad.failed e) ∈ files) :
    (configRun (ConfigLoad.missing p)
        = ([⟨false, "Configuration file not found: " ++ p, "error"⟩], false)
      ∧ configExit (ConfigLoad.missing p) = 1)
      ∧ (configRun (ConfigLoad.readFail e)
          = ([⟨false, "Failed to read config: " ++ e, "error"⟩], false)
        ∧ configExit (ConfigLoad.readFail e) = 1)
      ∧ validateFile p (FileLoad.failed e)
        = [⟨p, 0, "error", "structure", "Failed to read file: " ++ e⟩]
      ∧ (contentRun (some files)).2 = false
      ∧ contentExit (some files) = 1
      ∧ contentRun none = ([], true) := by
  refine ⟨⟨rfl, rfl⟩, ⟨rfl, rfl⟩, rfl, ?_, ?_, rfl⟩
  · have hne : files ≠ [] := by
      intro hnil
      rw [hnil] at hmem
      exact absurd hmem (List.not_mem_nil _)
    have hbad : (⟨p, 0, "error", "structure", "Failed to read file: " ++ e⟩ : ContentIssue)
        ∈ files.flatMap fun f => validateFile f.1 f.2 := by
      refine List.mem_flatMap.mpr ⟨(p, FileLoad.failed e), hmem, ?_⟩
      simp [validateFile]
    have hemp : files.isEmpty = false := by
      simp [List.isEmpty_eq_false, hne]
    simp only [contentRun, Option.getD_some, hemp, Bool.false_eq_true, if_false]
    have hmemf : (⟨p, 0, "error", "structure", "Failed to read file: " ++ e⟩ : ContentIssue)
        ∈ (files.flatMap fun f => validateFile f.1 f.2).filter
            (fun i => i.severity == "error") := by
      exact List.mem_filter.mpr ⟨hbad, rfl⟩
    have hlen : ((files.flatMap fun f => validateFile f.1 f.2).filter
        (fun i => i.severity == "error")).length ≠ 0 := by
      intro hz
      rw [List.length_eq_zero] at hz
      rw [hz] at hmemf
      exact absurd hmemf (List.not_mem_nil _)
    simp [Nat.beq_eq, hlen]
  · have h2 : (contentRun (some files)).2 = false := by
      have hne : files ≠ [] := by
        intro hnil
        rw [hnil] at hmem
        exact absurd hmem (List.not_mem_nil _)
      have hbad : (⟨p, 0, "error", "structure", "Failed to read file: " ++ e⟩ : ContentIssue)
          ∈ files.flatMap fun f => validateFile f.1 f.2 := by
        refine List.mem_flatMap.mpr ⟨(p, FileLoad.failed e), hmem, ?_⟩
        simp [validateFile]
      have hemp : files.isEmpty = false := by
        simp [List.isEmpty_eq_false, hne]
      simp only [contentRun, Option.getD_some, hemp, Bool.false_eq_true, if_false]
      have hmemf : (⟨p, 0, "error", "structure", "Failed to read file: " ++ e⟩ : ContentIssue)
          ∈ (files.flatMap fun f => validateFile f.1 f.2).filter
              (fun i => i.severity == "error") :=
        List.mem_filter.mpr ⟨hbad, rfl⟩
      have hlen : ((files.flatMap fun f => validateFile f.1 f.2).filter
          (fun i => i.severity == "error")).length ≠ 0 := by
        intro hz
        rw [List.length_eq_zero] at hz
        rw [hz] at hmemf
        exact absurd hmemf (List.not_mem_nil _)
      simp [Nat.beq_eq, hlen]
    simp [contentExit, h2]

theorem claim_c3_load_failures_witness :
    (contentRun (some [("a.md", FileLoad.failed "boom")])).2 = false
      ∧ contentExit (some [("a.md", FileLoad.failed "boom")]) = 1 :=
  ⟨(claim_c3_load_failures "a.md" "boom" [("a.md", FileLoad.failed "boom")]
      (by decide)).2.2.2.1,
   (claim_c3_load_failures "a.md" "boom" [("a.md", FileLoad.failed "boom")]
      (by decide)).2.2.2.2.1⟩

/-- C1: for both validators the overall result is pass exactly when the
recorded findings contain no finding with severity `"error"` that is not
flagged passed (the content validator's `ContentIssue` carries no
`passed` flag, so none of its findings is ever flagged passed and its
code tests severity alone); the process exits 0 on pass and 1 otherwise;
and appending a finding of any severity other than `"error"` leaves both
aggregation predicates unchanged, so warnings and info findings never
affect the exit code. -/
theorem claim_c1_overall_pass (load : ConfigLoad)
    (dir : Option (List (String × FileLoad)))
    (rs : List ValidationResult) (r : ValidationResult)
    (is : List ContentIssue) (i : ContentIssue)
    (hr : r.severity ≠ "error") (hi : i.severity ≠ "error") :
    ((configRun load).2 = true ↔
        ∀ x ∈ (configRun load).1, ¬(x.severity = "error" ∧ x.passed = false))
      ∧ ((contentRun dir).2 = true ↔
          ∀ x ∈ (contentRun dir).1, ¬(x.severity = "error"))
      ∧ ((configRun load).2 = true → configExit load = 0)
      ∧ ((configRun load).2 = false → configExit load = 1)
      ∧ ((contentRun dir).2 = true → contentExit dir = 0)
      ∧ ((contentRun dir).2 = false → contentExit dir = 1)
      ∧ hasErrors (rs ++ [r]) = hasErrors rs
      ∧ (is ++ [i]).filter (fun x => x.severity == "error")
        = is.filter (fun x => x.severity == "error") := by
  refine ⟨?_, ?_, ?_, ?_, ?_, ?_, ?_, ?_⟩
  · cases load with
    | missing p => simp [configRun]
    | readFail e => simp [configRun]
    | loaded c =>
      simp only [configRun, Bool.not_eq_true', hasErrors, List.any_eq_false]
      constructor
      · intro h x hx
        have := h x hx
        simp only [Bool.and_eq_true, beq_iff_eq, Bool.not_eq_true'] at this
        tauto
      · intro h x hx
        have := h x hx
        simp only [Bool.and_eq_true, beq_iff_eq, Bool.not_eq_true']
        tauto
  · simp only [contentRun]
    by_cases hemp : (dir.getD []).isEmpty = true
    · simp [hemp]
    · simp only [hemp, Bool.false_eq_true, if_false]
      simp only [beq_iff_eq, List.length_eq_zero, List.filter_eq_nil_iff]
  · intro h; simp [configExit, h]
  · intro h; simp [configExit, h]
  · intro h; simp [contentExit, h]
  · intro h; simp [contentExit, h]
  · simp [hasErrors, List.any_append, beq_eq_false_iff_ne.mpr hr]
  · simp [List.filter_append, beq_eq_false_iff_ne.mpr hi]

theorem claim_c1_overall_pass_witness :
    hasErrors ([⟨false, "x", "error"⟩] ++ [⟨true, "m", "warning"⟩])
        = hasErrors [⟨false, "x", "error"⟩]
      ∧ ((contentRun none).2 = true ↔
          ∀ x ∈ (contentRun none).1, ¬(x.severity = "error")) :=
  ⟨(claim_c1_overall_pass (ConfigLoad.loaded "") none
      [⟨false, "x", "error"⟩] ⟨true, "m", "warning"⟩
      [] ⟨"f", 1, "warning", "link", "m"⟩
      (by decide) (by decide)).2.2.2.2.2.2.1,
   (claim_c1_overall_pass (ConfigLoad.loaded "") none
      [⟨false, "x", "error"⟩] ⟨true, "m", "warning"⟩
      [] ⟨"f", 1, "warning", "link", "m"⟩
      (by decide) (by decide)).2.1⟩

theorem prefixOf_eq_append {l u : List Char} (h : l.isPrefixOf u = true) :
    ∃ v, u = l ++ v := by
  obtain ⟨v, hv⟩ := List.isPrefixOf_iff_prefix.mp h
  exact ⟨v, hv.symm⟩

/-- C2 counterexample: the claim says `[](https://example.com)` yields an
empty-link-text accessibility warning; but the link pattern
`\[([^\]]+)\]` requires at least one character of link text, so the
line matches no link at all and yields no finding. -/
theorem claim_c2_counterexample :
    findLinks "[](https://example.com)".data = []
      ∧ checkLinks "f.md" ["[](https://example.com)"] = [] :=
  ⟨rfl, rfl⟩

/-- C2 amended: every link match `[text](http://...)` yields a
warning-severity finding of category link; an `https://` link match
yields no link-category finding; and a link whose text is non-empty but
strips to the empty string (such as `[ ](https://example.com)`) yields
the empty-link-text accessibility warning regardless of `http`/`https`
scheme — but a literal `[]()` link with entirely empty text does not
match the link pattern at all and yields nothing. -/
theorem claim_c2_link_rule (name line : String) (n : Nat) (lines : List String)
    (t u : List Char) :
    ((n, line) ∈ withLineNums 1 lines → (t, u) ∈ findLinks line.data →
        "http://".data.isPrefixOf u = true →
        ∃ iss ∈ checkLinks name lines, iss.severity = "warning"
          ∧ iss.category = "link" ∧ iss.line_number = n
          ∧ iss.message = nonHttpsMessage u)
      ∧ ("https://".data.isPrefixOf u = true →
          ∀ iss ∈ linkIssuesFor name n t u, iss.category ≠ "link")
      ∧ ("http://".data.isPrefixOf u = true ∨ "https://".data.isPrefixOf u = true →
          (pyStripL t).isEmpty = true →
          ∃ iss ∈ linkIssuesFor name n t u, iss.severity = "warning"
            ∧ iss.category = "accessibility"
            ∧ iss.message = "Link has empty text - bad for screen readers")
      ∧ checkLinks name ["[](https://example.com)"] = [] := by
  refine ⟨?_, ?_, ?_, rfl⟩
  · intro hmem hfl hpre
    obtain ⟨v, hv⟩ := prefixOf_eq_append hpre
    subst hv
    refine ⟨⟨name, n, "warning", "link", nonHttpsMessage ("http://".data ++ v)⟩,
      ?_, rfl, rfl, rfl, rfl⟩
    refine List.mem_flatMap.mpr ⟨(n, line), hmem, ?_⟩
    refine List.mem_flatMap.mpr ⟨(t, "http://".data ++ v), hfl, ?_⟩
    simp +decide [linkIssuesFor, List.isPrefixOf]
  · intro hpre
    obtain ⟨v, hv⟩ := prefixOf_eq_append hpre
    subst hv
    intro iss hiss
    have hshape : linkIssuesFor name n t ("https://".data ++ v)
        = (if (pyStripL t).isEmpty then
            [⟨name, n, "warning", "accessibility",
              "Link has empty text - bad for screen readers"⟩]
          else []) := by
      simp +decide [linkIssuesFor, List.isPrefixOf]
    rw [hshape] at hiss
    split at hiss
    · rw [List.mem_singleton.mp hiss]
      intro hcat
      exact absurd hcat (by simp)
    · exact absurd hiss (List.not_mem_nil _)
  · intro hpre ht
    refine ⟨⟨name, n, "warning", "accessibility",
      "Link has empty text - bad for screen readers"⟩, ?_, rfl, rfl, rfl⟩
    rcases hpre with hpre | hpre <;>
      obtain ⟨v, hv⟩ := prefixOf_eq_append hpre <;> subst hv <;>
      simp +decide [linkIssuesFor, List.isPrefixOf, ht]

theorem claim_c2_link_rule_witness :
    (∃ iss ∈ checkLinks "f.md" ["a [x](http://e.fg) b"],
        iss.severity = "warning" ∧ iss.category = "link" ∧ iss.line_number = 1
          ∧ iss.message = nonHttpsMessage "http://e.fg".data)
      ∧ (∀ iss ∈ linkIssuesFor "f.md" 1 "x".data "https://e.fg".data,
          iss.category ≠ "link")
      ∧ (∃ iss ∈ linkIssuesFor "f.md" 1 " ".data "https://e.fg".data,
          iss.severity = "warning" ∧ iss.category = "accessibility"
            ∧ iss.message = "Link has empty text - bad for screen readers") :=
  ⟨(claim_c2_link_rule "f.md" "a [x](http://e.fg) b" 1 ["a [x](http://e.fg) b"]
      "x".data "http://e.fg".data).1 (by decide) (by decide) (by decide),
   (claim_c2_link_rule "f.md" "" 1 [] "x".data "https://e.fg".data).2.1 (by decide),
   (claim_c2_link_rule "f.md" "" 1 [] " ".data "https://e.fg".data).2.2.1
      (Or.inr (by decide)) (by decide)⟩

theorem hasLine_baseURL {content : String}
    (h : hasLine "baseURL = \"https://example.com\"" content = true) :
    fieldPresent "baseURL" content = true := by
  unfold hasLine at h
  rw [List.any_eq_true] at h
  obtain ⟨s, hs, hcond⟩ := h
  unfold fieldPresent
  rw [List.any_eq_true]
  refine ⟨s, hs, ?_⟩
  rw [Bool.or_eq_true] at hcond
  rcases hcond with hc | hc
  · rw [beq_iff_eq] at hc
    subst hc
    decide
  · obtain ⟨v, hv⟩ := prefixOf_eq_append hc
    subst hv
    simp +decide [matchFieldAt, List.isPrefixOf]

theorem security_no_error (c : String) :
    ∀ r ∈ validateSecuritySettings c, r.severity ≠ "error" := by
  intro r hr
  simp only [validateSecuritySettings, List.mem_append] at hr
  rcases hr with hr | hr <;> split_ifs at hr <;> simp_all

theorem defensive_no_error (c : String) :
    ∀ r ∈ validateDefensiveDefaults c, r.severity ≠ "error" := by
  intro r hr
  simp only [validateDefensiveDefaults, List.mem_cons, List.mem_singleton] at hr
  rcases hr with hr | hr | hr <;> first
    | (subst hr; unfold defensiveCheck; split_ifs <;> simp)
    | simp_all

theorem menu_no_error (c : String) :
    ∀ r ∈ validateMenuStructure c, r.severity ≠ "error" := by
  intro r hr
  simp only [validateMenuStructure] at hr
  split_ifs at hr <;> simp_all

theorem accessCfg_no_error (c : String) :
    ∀ r ∈ validateAccessibilityCfg c, r.severity ≠ "error" := by
  intro r hr
  simp only [validateAccessibilityCfg, List.mem_append] at hr
  rcases hr with hr | hr <;> split_ifs at hr <;> simp_all

theorem hasErrors_eq_false_of_no_error {rs : List ValidationResult}
    (h : ∀ r ∈ rs, r.severity ≠ "error") : hasErrors rs = false := by
  unfold hasErrors
  rw [List.any_eq_false]
  intro x hx
  simp [beq_eq_false_iff_ne.mpr (h x hx)]

/-- C6: a config text in which the code's required-field search fails for
`baseURL` yields an error-severity finding whose message mentions
`baseURL`, the run fails and exits 1; a config text containing the line
`baseURL = "https://example.com"` together with the other required
fields yields a passed info finding for `baseURL`, no error-severity
finding at all (in particular none for `baseURL`), an overall pass and
exit code 0. -/
theorem claim_c6_baseURL (content : String) :
    (fieldPresent "baseURL" content = false →
        (∃ r ∈ configResults content, r.severity = "error" ∧ r.passed = false
            ∧ containsStr "baseURL" r.message = true)
          ∧ (configRun (ConfigLoad.loaded content)).2 = false
          ∧ configExit (ConfigLoad.loaded content) = 1)
      ∧ (hasLine "baseURL = \"https://example.com\"" content = true →
          fieldPresent "title" content = true →
          fieldPresent "languageCode" content = true →
          (∃ r ∈ configResults content, r.passed = true ∧ r.severity = "info"
              ∧ containsStr "baseURL" r.message = true)
            ∧ (∀ r ∈ configResults content, r.severity ≠ "error")
            ∧ (configRun (ConfigLoad.loaded content)).2 = true
            ∧ configExit (ConfigLoad.loaded content) = 0) := by
  constructor
  · intro hA
    have hmem : (⟨false,
        "Missing required field \x27baseURL\x27: Base URL must be defined for proper site generation",
        "error"⟩ : ValidationResult) ∈ configResults content := by
      unfold configResults
      refine List.mem_append_left _ (List.mem_append_left _ ?_)
      refine List.mem_append_left _ (List.mem_append_left _ ?_)
      unfold validateRequiredFields
      rw [show requiredField "baseURL"
          "Base URL must be defined for proper site generation" content
          = ⟨false,
            "Missing required field \x27baseURL\x27: Base URL must be defined for proper site generation",
            "error"⟩ by simp [requiredField, hA]]
      exact List.mem_cons_self _ _
    have herr : hasErrors (configResults content) = true := by
      unfold hasErrors
      rw [List.any_eq_true]
      exact ⟨_, hmem, by decide⟩
    refine ⟨⟨_, hmem, by decide, by decide, by decide⟩, ?_, ?_⟩
    · simp [configRun, herr]
    · simp [configExit, configRun, herr]
  · intro hline htitle hlang
    have hbase := hasLine_baseURL hline
    have hreq : validateRequiredFields content
        = [⟨true, "Required field \x27baseURL\x27 is present", "info"⟩,
           ⟨true, "Required field \x27title\x27 is present", "info"⟩,
           ⟨true, "Required field \x27languageCode\x27 is present", "info"⟩] := by
      simp [validateRequiredFields, requiredField, hbase, htitle, hlang]
    have hnoerr : ∀ r ∈ configResults content, r.severity ≠ "error" := by
      intro r hr
      unfold configResults at hr
      simp only [List.mem_append] at hr
      rcases hr with ⟨⟨⟨hr | hr⟩ | hr⟩ | hr⟩ | hr
      · rw [hreq] at hr
        simp only [List.mem_cons, List.not_mem_nil, or_false] at hr
        rcases hr with hr | hr | hr <;> subst hr <;> simp
      · exact security_no_error content r hr
      · exact defensive_no_error content r hr
      · exact menu_no_error content r hr
      · exact accessCfg_no_error content r hr
    have hok : hasErrors (configResults content) = false :=
      hasErrors_eq_false_of_no_error hnoerr
    refine ⟨?_, hnoerr, ?_, ?_⟩
    · refine ⟨⟨true, "Required field \x27baseURL\x27 is present", "info"⟩, ?_,
        rfl, rfl, by decide⟩
      unfold configResults
      refine List.mem_append_left _ (List.mem_append_left _ ?_)
      refine List.mem_append_left _ (List.mem_append_left _ ?_)
      rw [hreq]
      exact List.mem_cons_self _ _
    · simp [configRun, hok]
    · simp [configExit, configRun, hok]

theorem claim_c6_baseURL_witness :
    ((∃ r ∈ configResults "title = \"T\"\nlanguageCode = \"en\"\n",
        r.severity = "error" ∧ r.passed = false
          ∧ containsStr "baseURL" r.message = true)
      ∧ (configRun (ConfigLoad.loaded "title = \"T\"\nlanguageCode = \"en\"\n")).2 = false
      ∧ configExit (ConfigLoad.loaded "title = \"T\"\nlanguageCode = \"en\"\n") = 1)
    ∧ ((configRun (ConfigLoad.loaded
        "baseURL = \"https://example.com\"\ntitle = \"T\"\nlanguageCode = \"en\"\n")).2 = true
      ∧ configExit (ConfigLoad.loaded
        "baseURL = \"https://example.com\"\ntitle = \"T\"\nlanguageCode = \"en\"\n") = 0) :=
  ⟨(claim_c6_baseURL "title = \"T\"\nlanguageCode = \"en\"\n").1 (by decide),
   ⟨((claim_c6_baseURL
        "baseURL = \"https://example.com\"\ntitle = \"T\"\nlanguageCode = \"en\"\n").2
      (by decide) (by decide) (by decide)).2.2.1,
    ((claim_c6_baseURL
        "baseURL = \"https://example.com\"\ntitle = \"T\"\nlanguageCode = \"en\"\n").2
      (by decide) (by decide) (by decide)).2.2.2⟩⟩

theorem length_beq_dedup_iff_nodup (l : List Nat) :
    (l.length == l.dedup.length) = true ↔ l.Nodup := by
  rw [beq_iff_eq]
  constructor
  · intro hl
    exact List.dedup_eq_self.mp ((List.dedup_sublist l).eq_of_length hl.symm)
  · intro hn
    rw [List.dedup_eq_self.mpr hn]

theorem countP_dup_required (c : String) :
    (validateRequiredFields c).countP isDupWeightWarning = 0 := by
  unfold validateRequiredFields requiredField
  split_ifs <;> rfl

theorem countP_dup_security (c : String) :
    (validateSecuritySettings c).countP isDupWeightWarning = 0 := by
  unfold validateSecuritySettings
  split_ifs <;> rfl

theorem countP_dup_defensive (c : String) :
    (validateDefensiveDefaults c).countP isDupWeightWarning = 0 := by
  unfold validateDefensiveDefaults defensiveCheck
  split_ifs <;> rfl

theorem countP_dup_accessCfg (c : String) :
    (validateAccessibilityCfg c).countP isDupWeightWarning = 0 := by
  unfold validateAccessibilityCfg
  split_ifs <;> rfl

/-- C7: when the captured `[[menu.main]]` blocks carry at least one
numeric weight, a duplicated weight makes the duplicate-weight warning
appear exactly once among all findings of the run, while pairwise
distinct weights produce no duplicate-weight warning and instead a
passed info finding reporting the unique weights. -/
theorem claim_c7_menu_weights (content : String)
    (h : menuWeights content ≠ []) :
    (¬(menuWeights content).Nodup →
        (configResults content).countP isDupWeightWarning = 1)
      ∧ ((menuWeights content).Nodup →
          (configResults content).countP isDupWeightWarning = 0
            ∧ ∃ r ∈ configResults content, r.passed = true ∧ r.severity = "info"
                ∧ r.message = "Menu weights are unique ("
                    ++ toString (menuWeights content).length ++ " items)") := by
  have hne : (menuWeights content).isEmpty = false := by
    simp [List.isEmpty_eq_false, h]
  have hsplit : (configResults content).countP isDupWeightWarning
      = (validateMenuStructure content).countP isDupWeightWarning := by
    unfold configResults
    simp only [List.countP_append, countP_dup_required, countP_dup_security,
      countP_dup_defensive, countP_dup_accessCfg]
    omega
  constructor
  · intro hdup
    have hbeq : ((menuWeights content).length == (menuWeights content).dedup.length) = false := by
      rw [Bool.eq_false_iff]
      intro hb
      exact hdup ((length_beq_dedup_iff_nodup _).mp hb)
    have hmenu : validateMenuStructure content
        = [⟨false, "Duplicate menu weights found - may cause ordering issues", "warning"⟩] := by
      unfold validateMenuStructure
      simp only [hne, Bool.false_eq_true, if_false, hbeq]
    rw [hsplit, hmenu]
    rfl
  · intro hnd
    have hbeq : ((menuWeights content).length == (menuWeights content).dedup.length) = true :=
      (length_beq_dedup_iff_nodup _).mpr hnd
    have hmenu : validateMenuStructure content
        = [⟨true, "Menu weights are unique ("
            ++ toString (menuWeights content).length ++ " items)", "info"⟩] := by
      unfold validateMenuStructure
      simp only [hne, Bool.false_eq_true, if_false, hbeq, if_true]
    refine ⟨by rw [hsplit, hmenu]; rfl, ?_⟩
    refine ⟨⟨true, "Menu weights are unique ("
        ++ toString (menuWeights content).length ++ " items)", "info"⟩, ?_, rfl, rfl, rfl⟩
    unfold configResults
    refine List.mem_append_left _ (List.mem_append_right _ ?_)
    rw [hmenu]
    exact List.mem_cons_self _ _

theorem claim_c7_menu_weights_witness :
    (configResults
        "[[menu.main]]\nweight = 1\n[[menu.main]]\nweight = 2\n[[menu.main]]\nweight = 2\n").countP
        isDupWeightWarning = 1
      ∧ (configResults
          "[[menu.main]]\nweight = 1\n[[menu.main]]\nweight = 2\n[[menu.main]]\nweight = 3\n").countP
          isDupWeightWarning = 0 :=
  ⟨(claim_c7_menu_weights
      "[[menu.main]]\nweight = 1\n[[menu.main]]\nweight = 2\n[[menu.main]]\nweight = 2\n"
      (by decide)).1 (by decide),
   ((claim_c7_menu_weights
      "[[menu.main]]\nweight = 1\n[[menu.main]]\nweight = 2\n[[menu.main]]\nweight = 3\n"
      (by decide)).2 (by decide)).1⟩

/-- C8: when `hugo` is absent from PATH the hugo probe reports
`found=false`, `check_hugo_version` fails with "Hugo not installed", and
the overall environment validation is failure with exit code 1; and in a
git repository (rev-parse succeeds with code 0) where `user.name` is
configured but `user.email` is not, the Git Configuration check reports
failure, which also makes the overall result failure with exit code 1. -/
theorem claim_c8_env_failures (w : EnvWorld) :
    (w.hugoWhich = false →
        (check_command "hugo" w.hugoWhich w.hugoRun true).found = false
          ∧ check_hugo_version w = (false, "Hugo not installed")
          ∧ validateEnv w = false ∧ envExit w = 1)
      ∧ (∀ rp nr er, w.gitRevParse = Except.ok rp → rp.returncode = 0 →
          w.gitConfigName = Except.ok nr →
          ((nr.returncode == 0) && !(pyStrip nr.stdout == "")) = true →
          w.gitConfigEmail = Except.ok er →
          ((er.returncode == 0) && !(pyStrip er.stdout == "")) = false →
          check_git_config w = (false, "Git user.name or user.email not configured")
            ∧ validateEnv w = false ∧ envExit w = 1) := by
  constructor
  · intro h
    have hfound : (check_command "hugo" w.hugoWhich w.hugoRun true).found = false := by
      rw [h]
      rfl
    have hhugo : check_hugo_version w = (false, "Hugo not installed") := by
      unfold check_hugo_version check_command
      rw [h]
      rfl
    have hval : validateEnv w = false := by
      unfold validateEnv
      rw [hhugo]
      rfl
    exact ⟨hfound, hhugo, hval, by simp [envExit, hval]⟩
  · intro rp nr er h1 h2 h3 h4 h5 h6
    have hcfg : check_git_config w
        = (false, "Git user.name or user.email not configured") := by
      unfold check_git_config
      rw [h1, h3, h5]
      simp only [h2, ne_eq, not_true_eq_false, if_false, h4, h6,
        Bool.true_and, Bool.false_eq_true]
    have hval : validateEnv w = false := by
      unfold validateEnv
      rw [hcfg]
      simp
    exact ⟨hcfg, hval, by simp [envExit, hval]⟩

theorem claim_c8_env_failures_witness :
    (validateEnv
        ⟨false, Except.error "no hugo", true, Except.ok ⟨0, "go version go1.22", ""⟩,
          true, Except.ok ⟨0, "git version 2.43", ""⟩,
          false, Except.error "no make", Except.ok ⟨0, "Python 3.11.2", ""⟩,
          Except.ok ⟨0, "", ""⟩, Except.ok ⟨0, "Alice\n", ""⟩,
          Except.ok ⟨1, "", ""⟩, false, false, Except.error "skipped"⟩ = false)
      ∧ check_git_config
          ⟨false, Except.error "no hugo", true, Except.ok ⟨0, "go version go1.22", ""⟩,
            true, Except.ok ⟨0, "git version 2.43", ""⟩,
            false, Except.error "no make", Except.ok ⟨0, "Python 3.11.2", ""⟩,
            Except.ok ⟨0, "", ""⟩, Except.ok ⟨0, "Alice\n", ""⟩,
            Except.ok ⟨1, "", ""⟩, false, false, Except.error "skipped"⟩
        = (false, "Git user.name or user.email not configured") :=
  ⟨((claim_c8_env_failures _).1 rfl).2.2.1,
   ((claim_c8_env_failures
      ⟨false, Except.error "no hugo", true, Except.ok ⟨0, "go version go1.22", ""⟩,
        true, Except.ok ⟨0, "git version 2.43", ""⟩,
        false, Except.error "no make", Except.ok ⟨0, "Python 3.11.2", ""⟩,
        Except.ok ⟨0, "", ""⟩, Except.ok ⟨0, "Alice\n", ""⟩,
        Except.ok ⟨1, "", ""⟩, false, false, Except.error "skipped"⟩).2
      ⟨0, "", ""⟩ ⟨0, "Alice\n", ""⟩ ⟨1, "", ""⟩
      rfl rfl rfl (by decide) rfl (by decide)).1⟩
